import Mathlib

/-!
Shallow embedding of the OpenAPI v3 document assembly engine of
`pkg/builder3/openapi.go` (package `builder3`), together with proofs about
the properties of its algorithms: common-parameter hoisting, recursive
memoized schema resolution, response merging and path installation.

Go maps are modelled as association lists in first-insertion order (Go map
iteration order is unspecified; every property proved here is insensitive to
that order).  Go's `(value, error)` returns are modelled with `Except` when
every caller discards the partial value on error, and with an explicit
product when partial state escapes (the top-level build).  The unbounded Go
recursion of `buildDefinitionRecursively` is modelled with an explicit fuel
argument; termination of the Go code at an input is expressed as "for every
sufficiently large fuel the function returns the same non-fuel-error
result".
-/

deriving instance DecidableEq for Except

namespace Builder3

/-! ## go-restful route model -/

/-- Model of `restful.ParameterKind`: go-restful declares exactly these five
parameter kinds (`PathParameterKind`, `QueryParameterKind`,
`BodyParameterKind`, `HeaderParameterKind`, `FormParameterKind`). -/
inductive ParameterKind where
  | path
  | query
  | body
  | header
  | form
  deriving DecidableEq, Repr

/-- The fields of `restful.ParameterData` read by the builder
(`Name`, `Description`, `Required`, `Kind`). -/
structure ParameterData where
  Name : String
  Description : String
  Required : Bool
  Kind : ParameterKind
  deriving DecidableEq, Repr

/-- Model of `restful.Parameter`: it wraps `ParameterData`; the builder only ever calls
`param.Data()`, modelled as the field `data`. -/
structure RestfulParameter where
  data : ParameterData
  deriving DecidableEq, Repr

/-- Model of `restful.ResponseError`.  The `Model interface{}` field is represented
by the canonical type name `util.GetCanonicalTypeName(Model)` that the
builder derives from it (the canonicalizer is an external collaborator). -/
structure ResponseError where
  Code : Nat
  Message : String
  Model : String
  deriving DecidableEq, Repr

/-- The fields of `restful.Route` read by the builder.  `WriteSample` and
`ReadSample` are `interface{}` values; as with `ResponseError.Model` they
are represented by their canonical type name (`none` models a nil sample).
`Metadata` values are represented as strings. -/
structure Route where
  Method : String
  Path : String
  Doc : String
  Consumes : List String
  Produces : List String
  Metadata : List (String × String)
  ParameterDocs : List RestfulParameter
  ResponseErrors : List ResponseError
  WriteSample : Option String
  ReadSample : Option String
  deriving DecidableEq, Repr

/-- The observable surface of `restful.WebService` used by the builder:
`RootPath()`, `PathParameters()` and `Routes()`. -/
structure WebService where
  rootPath : String
  pathParameters : List RestfulParameter
  routes : List Route
  deriving DecidableEq, Repr

/-! ## spec3 / go-openapi document model -/

/-- The parts of `spec.SchemaProps` that the builder writes (`Type`,
`Format` for primitives, `Ref` for references, plus a free-form body used
to carry a resolved definition's content). -/
structure SchemaProps where
  type : List String := []
  format : String := ""
  ref : String := ""
  description : String := ""
  deriving DecidableEq, Repr

/-- Model of `spec.Schema`: schema properties plus vendor extensions.  The Go
three-field copy (`VendorExtensible`, `SchemaProps`, `SwaggerSchemaProps`)
copies the entire value, which this structure reflects. -/
structure Schema where
  schemaProps : SchemaProps := {}
  extensions : List (String × String) := []
  deriving DecidableEq, Repr

/-- Model of `spec3.Parameter` (its `ParameterProps` fields written by the builder). -/
structure Parameter where
  Name : String := ""
  Description : String := ""
  Required : Bool := false
  In : String := ""
  deriving DecidableEq, Repr

/-- Model of `spec3.MediaType` (its `MediaTypeProps.Schema`). -/
structure MediaType where
  schema : Schema
  deriving DecidableEq, Repr

/-- Model of `spec3.Response`: description plus the per-media-type content map. -/
structure Response where
  Description : String := ""
  Content : List (String × MediaType) := []
  deriving DecidableEq, Repr

/-- Model of `spec3.Responses`: the status-code keyed response map plus the optional
default response. -/
structure Responses where
  StatusCodeResponses : List (Nat × Response) := []
  Default : Option Response := none
  deriving DecidableEq, Repr

/-- Model of `spec3.Operation` (its `OperationProps` fields written by the builder). -/
structure Operation where
  Description : String := ""
  Produces : List String := []
  Schemes : List String := []
  Extensions : List (String × String) := []
  ID : String := ""
  Tags : List String := []
  Responses : Builder3.Responses := {}
  Parameters : List Parameter := []
  deriving DecidableEq, Repr

/-- Model of `spec3.Path` (its `PathProps`).  `buildOpenAPISpec` only ever writes
`Parameters`; the per-method operation slots are never assigned (the
operation-building loop in the source is an unimplemented TODO), so they
stay at their zero value `none`. -/
structure Path where
  Parameters : List Parameter := []
  Get : Option Operation := none
  Put : Option Operation := none
  Post : Option Operation := none
  Delete : Option Operation := none
  deriving DecidableEq, Repr

/-- The schema map `spec.Components.Schemas`, keyed by display name. -/
abbrev Schemas := List (String × Schema)

/-- The path map `spec3.Paths.Paths`, keyed by path template. -/
abbrev Paths := List (String × Builder3.Path)

/-- Model of `spec3.OpenAPI`: the document tree returned by the build (the fields
the builder writes). -/
structure OpenAPI where
  paths : Paths := []
  schemas : Schemas := []
  deriving DecidableEq, Repr

/-! ## collaborators and configuration -/

/-- Model of `common.OpenAPIDefinition`: a schema body plus the dependency type
names that must also be resolved. -/
structure OpenAPIDefinition where
  schema : Schema
  dependencies : List String
  deriving DecidableEq, Repr

/-- Modelled from the spec: the TypeResolver collaborator.
`getOpenAPITypeFormat` is `common.GetOpenAPITypeFormat` (classify a type
name as a primitive type/format pair or not) and `definitions` is the
`o.definitions` registry of `common.OpenAPIDefinition`s keyed by canonical
type name; both live outside `src/`. -/
structure TypeResolver where
  getOpenAPITypeFormat : String → Option (String × String)
  definitions : List (String × OpenAPIDefinition)

/-- Errors raised by the builder.  `outOfFuel` is an artifact of the fuel
embedding of `buildDefinitionRecursively` and corresponds to no Go error. -/
inductive Err where
  | duplicatePath (path : String)
  | duplicateParameter (name : String)
  | unsupportedKind (p : ParameterData)
  | invalidRequired (p : ParameterData)
  | unknownType (name : String)
  | duplicateMediaType (mediaType : String) (typeName : String)
  | collaborator (msg : String)
  | outOfFuel
  deriving DecidableEq, Repr

/-- The fields of `common.Config` read by the builder. -/
structure Config where
  ignorePrefixes : List String := []
  protocolList : List String := []
  commonResponses : List (Nat × Response) := []
  defaultResponse : Option Response := none
  getDefinitionName : String → String × List (String × String)
  getOperationIDAndTags : Route → Except Err (String × List String)

/-! ## association-list primitives (the Go map operations) -/

/-- Go map read `m[k]`. -/
def alookup {β : Type} [DecidableEq α] (k : α) : List (α × β) → Option β
  | [] => none
  | (k2, v) :: rest => if k2 = k then some v else alookup k rest

/-- The key list of a Go map (in first-insertion order). -/
def akeys {β : Type} (l : List (α × β)) : List α := l.map Prod.fst

/-- Go map write `m[k] = v`: overwrite in place, or append a new entry. -/
def aset {β : Type} [DecidableEq α] (k : α) (v : β) : List (α × β) → List (α × β)
  | [] => [(k, v)]
  | (k2, v2) :: rest => if k2 = k then (k2, v) :: rest else (k2, v2) :: aset k v rest

/-- Go counter-map increment `m[k]++` (missing keys count as zero). -/
def bumpCount [DecidableEq α] (k : α) : List (α × Nat) → List (α × Nat)
  | [] => [(k, 1)]
  | (k2, n) :: rest => if k2 = k then (k2, n + 1) :: rest else (k2, n) :: bumpCount k rest

/-- The count of `k` in a counter map, as Go reads it (`0` when absent). -/
def countValue [DecidableEq α] (k : α) (l : List (α × Nat)) : Nat :=
  (alookup k l).getD 0

/-! ## helpers not in `src/`, modelled from the spec -/

/-- Parameter identity key. -/
abbrev ParamKey := String × ParameterKind

/-- Modelled from the spec: `mapKeyFromParam` (declared in the builder's
`util.go`, not under `src/`) computes a parameter's identity key, the pair
(name, kind). -/
def mapKeyFromParam (param : RestfulParameter) : ParamKey :=
  (param.data.Name, param.data.Kind)

/-- Modelled from the spec: `groupRoutesByPath` (not under `src/`) groups a
web service's routes by their path template, preserving route order. -/
def addRouteToGroups (r : Route) : List (String × List Route) → List (String × List Route)
  | [] => [(r.Path, [r])]
  | (p, rs) :: rest =>
    if p = r.Path then (p, rs ++ [r]) :: rest else (p, rs) :: addRouteToGroups r rest

/-- Modelled from the spec: `groupRoutesByPath`, see `addRouteToGroups`. -/
def groupRoutesByPath (routes : List Route) : List (String × List Route) :=
  routes.foldl (fun acc r => addRouteToGroups r acc) []

/-- Ordering used by `sortParameters`: by location (`In`) then name. -/
def paramLe (a b : Parameter) : Bool :=
  decide (a.In < b.In) || (decide (a.In = b.In) && decide (a.Name ≤ b.Name))

/-- Insertion step of the parameter sort. -/
def insertParamSorted (p : Parameter) : List Parameter → List Parameter
  | [] => [p]
  | q :: qs => if paramLe p q then p :: q :: qs else q :: insertParamSorted p qs

/-- Modelled from the spec: `sortParameters` (not under `src/`) sorts a
parameter list deterministically by location then name. -/
def sortParameters (ps : List Parameter) : List Parameter :=
  ps.foldr insertParamSorted []

/-- Model of `strings.HasSuffix` of the Go standard library, over character lists. -/
def goHasSuffix (s pat : String) : Bool :=
  List.isSuffixOf pat.toList s.toList

/-- The Go string slice `s[:len(s)-n]`, over character lists (path
templates are ASCII, where bytes and characters coincide). -/
def goDropRight (s : String) (n : Nat) : String :=
  String.mk (s.toList.take (s.toList.length - n))

/-- Modelled from the spec: the ignore-prefix trie
(`util.NewTrie(o.config.IgnorePrefixes)`, not under `src/`).
`HasPrefix(s)` holds iff some configured ignore-prefix is a prefix of `s`. -/
def trieHasMatch (words : List String) (s : String) : Bool :=
  words.any (fun w => List.isPrefixOf w.toList s.toList)

/-- Pointer-escaping of one character: `~` becomes `~0` and `/` becomes
`~1` (the two replacements of `common.EscapeJsonPointer`). -/
def escapeChar (c : Char) : List Char :=
  if c = Char.ofNat 126 then [Char.ofNat 126, Char.ofNat 48]
  else if c = Char.ofNat 47 then [Char.ofNat 126, Char.ofNat 49]
  else [c]

/-- Model of `common.EscapeJsonPointer` (external collaborator, outside `src/`):
escape `~` and `/` so the display name can be used in a JSON pointer.
Character-wise escaping coincides with the two sequential whole-string
replacements of the Go code because the replacement texts contain no
further `/` and introduce no `~` in replaced position. -/
def escapeJsonPointer (p : String) : String :=
  String.mk ((p.toList.map escapeChar).flatten)

/-- The recognized extension-key marker.  Modelled from the spec and from
the commented-out constant in the source
(`extensionPrefix = "x-kubernetes-"`). -/
def extensionMarker : String := "x-kubernetes-"

/-! ## the builder (shallow embedding of `pkg/builder3/openapi.go`) -/

/-- Embedding of `(o *openAPI) buildParameter`: convert one declared parameter into a
document parameter, mapping its kind to a location tag.  The `bodySample`
argument is accepted and ignored exactly as in the source. -/
def buildParameter (restParam : ParameterData) (bodySample : Option String) :
    Except Err Parameter :=
  let ret : Parameter :=
    { Name := restParam.Name
      Description := restParam.Description
      Required := restParam.Required }
  match restParam.Kind with
  | .path =>
    if !restParam.Required then
      .error (.invalidRequired restParam)
    else
      .ok { ret with In := "path" }
  | .query => .ok { ret with In := "query" }
  | .header => .ok { ret with In := "header" }
  | _ => .error (.unsupportedKind restParam)

/-- Embedding of `(o *openAPI) buildParameters`: build a parameter list, failing on the
first parameter that does not build. -/
def buildParameters : List RestfulParameter → Except Err (List Parameter)
  | [] => .ok []
  | v :: vs =>
    match buildParameter v.data none with
    | .error e => .error e
    | .ok p =>
      match buildParameters vs with
      | .error e => .error e
      | .ok ps => .ok (p :: ps)

/-- The per-route scan of `findCommonParameters`: reject a key declared
twice on one route, tally the key and record its (last-seen) data. -/
def tallyParams :
    List RestfulParameter → List ParamKey → List (ParamKey × Nat) →
    List (ParamKey × ParameterData) →
    Except Err (List (ParamKey × Nat) × List (ParamKey × ParameterData))
  | [], _, counts, datas => .ok (counts, datas)
  | param :: ps, seen, counts, datas =>
    if mapKeyFromParam param ∈ seen then
      .error (.duplicateParameter param.data.Name)
    else
      tallyParams ps (mapKeyFromParam param :: seen)
        (bumpCount (mapKeyFromParam param) counts)
        (aset (mapKeyFromParam param) param.data datas)

/-- The route loop of `findCommonParameters`: scan every route's
parameters (each route starts with a fresh duplicate-detection set). -/
def tallyRoutes :
    List Route → List (ParamKey × Nat) → List (ParamKey × ParameterData) →
    Except Err (List (ParamKey × Nat) × List (ParamKey × ParameterData))
  | [], counts, datas => .ok (counts, datas)
  | r :: rs, counts, datas =>
    match tallyParams r.ParameterDocs [] counts datas with
    | .error e => .error e
    | .ok (counts2, datas2) => tallyRoutes rs counts2 datas2

/-- The zero value of `restful.ParameterData` (a missing map key reads as
the zero value in Go; `PathParameterKind` is the zero kind). -/
def zeroParameterData : ParameterData :=
  { Name := "", Description := "", Required := false, Kind := .path }

/-- The hoisting loop of `findCommonParameters`: a key whose tally equals
the route count and whose recorded data is not body-kind is built and added
to the common-parameter map. -/
def hoistCommon (routeCount : Nat) (datas : List (ParamKey × ParameterData)) :
    List (ParamKey × Nat) → List (ParamKey × Parameter) →
    Except Err (List (ParamKey × Parameter))
  | [], acc => .ok acc
  | (key, count) :: rest, acc =>
    if count = routeCount ∧ ((alookup key datas).getD zeroParameterData).Kind ≠ .body then
      match buildParameter ((alookup key datas).getD zeroParameterData) none with
      | .error e => .error e
      | .ok openAPIParam => hoistCommon routeCount datas rest (acc ++ [(key, openAPIParam)])
    else
      hoistCommon routeCount datas rest acc

/-- Embedding of `(o *openAPI) findCommonParameters`: compute the parameters shared by
every route of one path. -/
def findCommonParameters (routes : List Route) :
    Except Err (List (ParamKey × Parameter)) :=
  match tallyRoutes routes [] [] with
  | .error e => .error e
  | .ok (counts, datas) => hoistCommon routes.length datas counts []

/-- Merge the config-supplied extension pairs into a schema's extensions
(the body of the `if extensions != nil` block of
`buildDefinitionRecursively`; existing keys are overwritten). -/
def mergeExtensions (base : List (String × String)) (extensions : List (String × String)) :
    List (String × String) :=
  extensions.foldl (fun acc kv => aset kv.1 kv.2 acc) base

/-- The dependency loop of `buildDefinitionRecursively`: run `f` on each
dependency in order, threading the schema map and stopping at the first
error. -/
def runAll (f : String → Schemas → Except Err Schemas) :
    List String → Schemas → Except Err Schemas
  | [], st => .ok st
  | d :: ds, st =>
    match f d st with
    | .ok st2 => runAll f ds st2
    | .error e => .error e

/-- The schema copy made by `buildDefinitionRecursively`: the definition's
schema body with the config-supplied extension pairs merged in when present
(the Go `if extensions != nil` block). -/
def withConfigExtensions (extensions : List (String × String)) (schema : Schema) : Schema :=
  if extensions.isEmpty then schema
  else { schema with extensions := mergeExtensions schema.extensions extensions }

/-- Embedding of `(o *openAPI) buildDefinitionRecursively`: resolve a type name into the
schema map.  If the display name is already present, return at once
(memoization / cycle breaking); otherwise insert the definition's body
under the display name *before* recursing into its dependencies.  `fuel`
bounds the recursion depth of the fuel embedding. -/
def buildDefinitionRecursively (cfg : Config) (rs : TypeResolver)
    (fuel : Nat) (name : String) (st : Schemas) : Except Err Schemas :=
  match fuel with
  | 0 => .error .outOfFuel
  | fuel2 + 1 =>
    match alookup (cfg.getDefinitionName name).1 st with
    | some _ => .ok st
    | none =>
      match alookup name rs.definitions with
      | some item =>
        runAll (fun v st2 => buildDefinitionRecursively cfg rs fuel2 v st2)
          item.dependencies
          (aset (cfg.getDefinitionName name).1
            (withConfigExtensions (cfg.getDefinitionName name).2 item.schema) st)
      | none => .error (.unknownType name)

/-- Embedding of `(o *openAPI) buildDefinitionForType`: resolve a type name and return a
referable `#/components/schemas/` pointer to its definition. -/
def buildDefinitionForType (cfg : Config) (rs : TypeResolver)
    (fuel : Nat) (name : String) (st : Schemas) : Except Err (String × Schemas) :=
  match buildDefinitionRecursively cfg rs fuel name st with
  | .error e => .error e
  | .ok st2 =>
    let defName := (cfg.getDefinitionName name).1
    .ok ("#/components/schemas/" ++ escapeJsonPointer defName, st2)

/-- Embedding of `(o *openAPI) toSchema`: a primitive type name becomes an inline
type/format schema; anything else becomes a reference into the schema map. -/
def toSchema (cfg : Config) (rs : TypeResolver) (fuel : Nat) (name : String)
    (st : Schemas) : Except Err (Schema × Schemas) :=
  match rs.getOpenAPITypeFormat name with
  | some (openAPIType, openAPIFormat) =>
    .ok ({ schemaProps := { type := [openAPIType], format := openAPIFormat } }, st)
  | none =>
    match buildDefinitionForType cfg rs fuel name st with
    | .error e => .error e
    | .ok (ref, st2) => .ok ({ schemaProps := { ref := ref } }, st2)

/-- The content loop of `buildResponse`: fan the schema out into one entry
per media type, rejecting a duplicate media type. -/
def buildContent (schema : Schema) (typeName : String) :
    List String → List (String × MediaType) → Except Err (List (String × MediaType))
  | [], content => .ok content
  | mediaType :: rest, content =>
    if (alookup mediaType content).isSome then
      .error (.duplicateMediaType mediaType typeName)
    else
      buildContent schema typeName rest (aset mediaType { schema := schema } content)

/-- Embedding of `(o *openAPI) buildResponse`: a description plus one content entry per
consumed media type, each carrying the model's schema. -/
def buildResponse (cfg : Config) (rs : TypeResolver) (fuel : Nat)
    (model : String) (description : String) (mediaTypes : List String)
    (st : Schemas) : Except Err (Response × Schemas) :=
  match toSchema cfg rs fuel model st with
  | .error e => .error e
  | .ok (schema, st2) =>
    match buildContent schema model mediaTypes [] with
    | .error e => .error e
    | .ok content => .ok ({ Description := description, Content := content }, st2)

/-- The `route.ResponseErrors` loop of `buildOperations`: build each
declared error response and store it under its status code. -/
def buildRouteResponses (cfg : Config) (rs : TypeResolver) (fuel : Nat)
    (mediaTypes : List String) :
    List ResponseError → List (Nat × Response) → Schemas →
    Except Err (List (Nat × Response) × Schemas)
  | [], acc, st => .ok (acc, st)
  | resp :: rest, acc, st =>
    match buildResponse cfg rs fuel resp.Model resp.Message mediaTypes st with
    | .error e => .error e
    | .ok (r, st2) => buildRouteResponses cfg rs fuel mediaTypes rest (aset resp.Code r acc) st2

/-- The common-responses loop of `buildOperations` (source lines 206-210):
copy a configured common response in only when its status code is not
already present. -/
def mergeCommonResponses :
    List (Nat × Response) → List (Nat × Response) → List (Nat × Response)
  | [], m => m
  | (code, resp) :: rest, m =>
    mergeCommonResponses rest
      (match alookup code m with
       | some _ => m
       | none => aset code resp m)

/-- The parameter loop of `buildOperations`: build every route parameter
whose key is not in the hoisted map, in declaration order. -/
def buildNonCommonParameters (inPathCommonParamsMap : List (ParamKey × Parameter))
    (readSample : Option String) :
    List RestfulParameter → Except Err (List Parameter)
  | [] => .ok []
  | param :: ps =>
    if (alookup (mapKeyFromParam param) inPathCommonParamsMap).isSome then
      buildNonCommonParameters inPathCommonParamsMap readSample ps
    else
      match buildParameter param.data readSample with
      | .error e => .error e
      | .ok openAPIParam =>
        match buildNonCommonParameters inPathCommonParamsMap readSample ps with
        | .error e => .error e
        | .ok rest => .ok (openAPIParam :: rest)

/-- Embedding of `(o *openAPI) buildOperations`: build one operation — extensions from
route metadata, the collaborator-supplied id and tags, the responses map
(declared errors, then the synthesized 200 for a write sample, then the
common responses, then the default fallback) and the non-hoisted
parameters. -/
def buildOperations (cfg : Config) (rs : TypeResolver) (fuel : Nat) (route : Route)
    (inPathCommonParamsMap : List (ParamKey × Parameter)) (st : Schemas) :
    Except Err (Operation × Schemas) :=
  let extensions := route.Metadata.foldl
    (fun acc kv =>
      if List.isPrefixOf extensionMarker.toList kv.1.toList then aset kv.1.toLower kv.2 acc
      else acc) []
  match cfg.getOperationIDAndTags route with
  | .error e => .error e
  | .ok idTags =>
    match buildRouteResponses cfg rs fuel route.Consumes route.ResponseErrors [] st with
    | .error e => .error e
    | .ok (scr1, st1) =>
      match
        (if scr1.isEmpty then
          match route.WriteSample with
          | some w =>
            match buildResponse cfg rs fuel w "OK" route.Consumes st1 with
            | .error e => .error e
            | .ok (r, st2) => .ok (aset 200 r scr1, st2)
          | none => .ok (scr1, st1)
        else
          (.ok (scr1, st1) : Except Err (List (Nat × Response) × Schemas)))
      with
      | .error e => .error e
      | .ok (scr2, st2) =>
        let scr3 := mergeCommonResponses cfg.commonResponses scr2
        let dflt := if scr3.isEmpty then cfg.defaultResponse else none
        match buildNonCommonParameters inPathCommonParamsMap route.ReadSample
            route.ParameterDocs with
        | .error e => .error e
        | .ok params =>
          .ok ({ Description := route.Doc
                 Produces := route.Produces
                 Schemes := cfg.protocolList
                 Extensions := extensions
                 ID := idTags.1
                 Tags := idTags.2
                 Responses := { StatusCodeResponses := scr3, Default := dflt }
                 Parameters := params }, st2)

/-- The per-path loop of `buildOpenAPISpec`: normalize a trailing `{x:*}`
marker, skip ignored paths, compute the hoisted parameters, reject a path
template that is already installed, and install the path item (the
per-route operation-building loop in the source is an unimplemented TODO,
so no operations are attached).  Errors return the paths installed so far. -/
def buildPathsForService (cfg : Config) (commonParams : List Parameter) :
    List (String × List Route) → Paths → Paths × Option Err
  | [], acc => (acc, none)
  | (path0, routes) :: rest, acc =>
    let path := if goHasSuffix path0 ":*\x7d" then goDropRight path0 3 ++ "\x7d" else path0
    if trieHasMatch cfg.ignorePrefixes path then
      buildPathsForService cfg commonParams rest acc
    else
      match findCommonParameters routes with
      | .error e => (acc, some e)
      | .ok inPathCommonParamsMap =>
        match alookup path acc with
        | some _ => (acc, some (.duplicatePath path))
        | none =>
          let pathItem : Builder3.Path :=
            { Parameters :=
                sortParameters (commonParams ++ inPathCommonParamsMap.map Prod.snd) }
          buildPathsForService cfg commonParams rest (aset path pathItem acc)

/-- Embedding of `(o *openAPI) buildOpenAPISpec`: iterate over the web services,
skipping ignored root paths, building each service's own path parameters
and then every retained path.  Errors return the paths installed so far. -/
def buildOpenAPISpec (cfg : Config) : List WebService → Paths → Paths × Option Err
  | [], acc => (acc, none)
  | w :: ws, acc =>
    if trieHasMatch cfg.ignorePrefixes w.rootPath then
      buildOpenAPISpec cfg ws acc
    else
      match buildParameters w.pathParameters with
      | .error e => (acc, some e)
      | .ok commonParams =>
        match buildPathsForService cfg commonParams (groupRoutesByPath w.routes) acc with
        | (acc2, some e) => (acc2, some e)
        | (acc2, none) => buildOpenAPISpec cfg ws acc2

/-- Embedding of `BuildOpenAPISpec`: the exported entry point.  The Go function returns
the (possibly nil) document pointer `o.spec` alongside the error;
`newOpenAPI` always allocates the document, so the returned pointer is
always non-nil — modelled by the `Option` always being `some`. -/
def BuildOpenAPISpec (webServices : List WebService) (cfg : Config) :
    Option OpenAPI × Option Err :=
  let r := buildOpenAPISpec cfg webServices []
  (some { paths := r.1, schemas := [] }, r.2)

/-! ## spec-side predicates (stated in the words of the specification) -/

/-- Follows the specification's words: a parameter key is "declared with
identical parameter data on every route" when a single parameter payload
with that key is declared on each route of the set. -/
def declaredIdenticallyOnAll (routes : List Route) (key : ParamKey) : Prop :=
  ∃ pd : ParameterData, (pd.Name, pd.Kind) = key ∧
    ∀ r ∈ routes, ∃ p ∈ r.ParameterDocs, p.data = pd

/-- A route declares a parameter with the given key. -/
def declaresKey (r : Route) (key : ParamKey) : Prop :=
  ∃ p ∈ r.ParameterDocs, mapKeyFromParam p = key

instance (r : Route) (key : ParamKey) : Decidable (declaresKey r key) := by
  unfold declaresKey
  infer_instance

/-! ## concrete scenario inputs used by witnesses and counterexamples -/

/-- A configuration with trivial collaborators. -/
def cfg0 : Config :=
  { getDefinitionName := fun n => (n, [])
    getOperationIDAndTags := fun _ => .ok ("", []) }

/-- A type resolver that classifies nothing as primitive and knows no
definitions. -/
def rs0 : TypeResolver :=
  { getOpenAPITypeFormat := fun _ => none, definitions := [] }

/-- A route with no parameters, responses or samples. -/
def emptyRoute : Route :=
  { Method := "GET", Path := "/a", Doc := "", Consumes := [], Produces := []
    Metadata := [], ParameterDocs := [], ResponseErrors := []
    WriteSample := none, ReadSample := none }

/-- Parameter `q` as declared by the first route of the C1 counterexample. -/
def pdQ1 : ParameterData :=
  { Name := "q", Description := "first description", Required := false, Kind := .query }

/-- Parameter `q` as declared by the second route: same key, different data. -/
def pdQ2 : ParameterData :=
  { Name := "q", Description := "second description", Required := false, Kind := .query }

/-- First route declaring `q`. -/
def rQ1 : Route := { emptyRoute with ParameterDocs := [⟨pdQ1⟩] }

/-- Second route declaring `q` with different data. -/
def rQ2 : Route := { emptyRoute with ParameterDocs := [⟨pdQ2⟩] }

/-- The required path parameter of the end-to-end scenario. -/
def pdPath : ParameterData :=
  { Name := "path", Description := "path to the resource", Required := true, Kind := .path }

/-- The query parameter of the end-to-end scenario. -/
def pdPretty : ParameterData :=
  { Name := "pretty", Description := "If true, then the output is pretty printed.",
    Required := false, Kind := .query }

/-- GET route of the end-to-end scenario: path parameter plus `pretty`. -/
def rGet : Route :=
  { emptyRoute with
    Method := "GET", Path := "/foo/test/{path}",
    ParameterDocs := [⟨pdPath⟩, ⟨pdPretty⟩] }

/-- POST route of the end-to-end scenario: only the path parameter. -/
def rPost : Route :=
  { emptyRoute with
    Method := "POST", Path := "/foo/test/{path}",
    ParameterDocs := [⟨pdPath⟩] }

/-- The web service of the end-to-end scenario. -/
def ws0 : WebService :=
  { rootPath := "/foo", pathParameters := [], routes := [rGet, rPost] }

/-- The hoisted parameter the end-to-end scenario produces. -/
def hoistedPathParam : Parameter :=
  { Name := "path", Description := "path to the resource", Required := true, In := "path" }

/-- The `pretty` parameter as built into the GET operation. -/
def builtPrettyParam : Parameter :=
  { Name := "pretty", Description := "If true, then the output is pretty printed.",
    Required := false, In := "query" }

/-- A resolver with a single dependency-free definition `T`. -/
def rsT : TypeResolver :=
  { getOpenAPITypeFormat := fun _ => none
    definitions := [("T", { schema := {}, dependencies := [] })] }

/-- A resolver with the mutually recursive definitions `A -> B -> A`. -/
def rsAB : TypeResolver :=
  { getOpenAPITypeFormat := fun _ => none
    definitions :=
      [("A", { schema := {}, dependencies := ["B"] }),
       ("B", { schema := {}, dependencies := ["A"] })] }

/-- A path map that already contains the template `/a`. -/
def accA : Paths := [("/a", {})]

/-- A path-kind parameter not marked required. -/
def pdBadPath : ParameterData :=
  { Name := "id", Description := "", Required := false, Kind := .path }

/-- An explicitly declared response (for the merge witness). -/
def respExplicit : Response := { Description := "explicit" }

/-- A configured common response. -/
def respCommon : Response := { Description := "common" }

/-- A second configured common response. -/
def respExtra : Response := { Description := "extra" }

/-- The configured default response. -/
def respDefault : Response := { Description := "default" }

/-- A configuration with a non-empty common-responses table and a default
response (the C8 counterexample configuration). -/
def cfgC8 : Config :=
  { cfg0 with commonResponses := [(500, respCommon)], defaultResponse := some respDefault }

/-- A configuration with an empty common-responses table and a default
response (the C8 witness configuration). -/
def cfgD8 : Config := { cfg0 with defaultResponse := some respDefault }

/-- The form-kind parameter of the C9 scenario. -/
def pdForm : ParameterData :=
  { Name := "fparam", Description := "a test form parameter", Required := false, Kind := .form }

/-- A route declaring the form parameter. -/
def rForm : Route := { emptyRoute with Path := "/x/f", ParameterDocs := [⟨pdForm⟩] }

/-- A web service whose single route declares a form parameter. -/
def wsForm : WebService := { rootPath := "/x", pathParameters := [], routes := [rForm] }

/-- A web service serving the single path `/a`. -/
def wsA : WebService := { rootPath := "/x", pathParameters := [], routes := [emptyRoute] }

/-! # Lemmas about the Go map model -/

@[simp]
theorem alookup_nil {β : Type} [DecidableEq α] (k : α) :
    alookup k ([] : List (α × β)) = none := rfl

@[simp]
theorem akeys_nil {β : Type} : akeys ([] : List (α × β)) = [] := rfl

@[simp]
theorem akeys_cons {β : Type} (p : α × β) (l : List (α × β)) :
    akeys (p :: l) = p.1 :: akeys l := rfl

theorem akeys_append {β : Type} (l1 l2 : List (α × β)) :
    akeys (l1 ++ l2) = akeys l1 ++ akeys l2 := by
  simp [akeys]

theorem alookup_eq_none {β : Type} [DecidableEq α] (k : α) (l : List (α × β)) :
    alookup k l = none ↔ k ∉ akeys l := by
  induction l with
  | nil => simp
  | cons hd tl ih =>
    obtain ⟨k2, v2⟩ := hd
    by_cases h : k2 = k
    · subst h
      simp [alookup]
    · rw [akeys_cons]
      simp only [alookup, if_neg h, List.mem_cons, not_or]
      rw [ih]
      constructor
      · exact fun hn => ⟨fun he => h he.symm, hn⟩
      · exact fun hn => hn.2

theorem mem_akeys_of_alookup {β : Type} [DecidableEq α] {k : α} {v : β}
    {l : List (α × β)} (h : alookup k l = some v) : k ∈ akeys l := by
  by_contra hmem
  rw [← alookup_eq_none] at hmem
  simp [hmem] at h

theorem alookup_isSome_of_mem {β : Type} [DecidableEq α] {k : α}
    {l : List (α × β)} (h : k ∈ akeys l) : ∃ v, alookup k l = some v := by
  cases hv : alookup k l with
  | none => exact absurd ((alookup_eq_none k l).mp hv) (by simp [h])
  | some v => exact ⟨v, rfl⟩

theorem alookup_mem_pair {β : Type} [DecidableEq α] {k : α} {v : β}
    {l : List (α × β)} (h : alookup k l = some v) : (k, v) ∈ l := by
  induction l with
  | nil => simp at h
  | cons hd tl ih =>
    obtain ⟨k2, v2⟩ := hd
    by_cases hk : k2 = k
    · subst hk
      simp [alookup] at h
      simp [h]
    · simp [alookup, hk] at h
      simp [ih h]

@[simp]
theorem alookup_aset_self {β : Type} [DecidableEq α] (k : α) (v : β) (l : List (α × β)) :
    alookup k (aset k v l) = some v := by
  induction l with
  | nil => simp [aset, alookup]
  | cons hd tl ih =>
    obtain ⟨k2, v2⟩ := hd
    by_cases h : k2 = k <;> simp [aset, alookup, h, ih]

theorem alookup_aset_ne {β : Type} [DecidableEq α] {k k2 : α} (h : k2 ≠ k)
    (v : β) (l : List (α × β)) : alookup k (aset k2 v l) = alookup k l := by
  induction l with
  | nil => simp [aset, alookup, h]
  | cons hd tl ih =>
    obtain ⟨k3, v3⟩ := hd
    simp only [aset]
    by_cases h3 : k3 = k2
    · subst h3
      rw [if_pos rfl]
      simp [alookup, h]
    · rw [if_neg h3]
      by_cases h4 : k3 = k
      · subst h4
        simp [alookup]
      · simp [alookup, h4, ih]

theorem akeys_aset_of_mem {β : Type} [DecidableEq α] {k : α} {l : List (α × β)}
    (h : k ∈ akeys l) (v : β) : akeys (aset k v l) = akeys l := by
  induction l with
  | nil => simp at h
  | cons hd tl ih =>
    obtain ⟨k2, v2⟩ := hd
    by_cases h2 : k2 = k
    · simp [aset, h2]
    · rw [akeys_cons, List.mem_cons] at h
      rcases h with h | h
      · exact absurd h.symm h2
      · simp [aset, h2, ih h]

theorem akeys_aset_of_not_mem {β : Type} [DecidableEq α] {k : α} {l : List (α × β)}
    (h : k ∉ akeys l) (v : β) : akeys (aset k v l) = akeys l ++ [k] := by
  induction l with
  | nil => simp [aset]
  | cons hd tl ih =>
    obtain ⟨k2, v2⟩ := hd
    rw [akeys_cons, List.mem_cons, not_or] at h
    have h2 : k2 ≠ k := fun he => h.1 he.symm
    simp [aset, h2, ih h.2]

theorem mem_akeys_aset {β : Type} [DecidableEq α] (k2 k : α) (v : β) (l : List (α × β)) :
    k2 ∈ akeys (aset k v l) ↔ k2 = k ∨ k2 ∈ akeys l := by
  by_cases h : k ∈ akeys l
  · rw [akeys_aset_of_mem h]
    constructor
    · exact fun hm => Or.inr hm
    · rintro (rfl | hm) <;> [exact h; exact hm]
  · rw [akeys_aset_of_not_mem h]
    simp [or_comm]

theorem nodup_akeys_aset {β : Type} [DecidableEq α] (k : α) (v : β) {l : List (α × β)}
    (hn : (akeys l).Nodup) : (akeys (aset k v l)).Nodup := by
  by_cases h : k ∈ akeys l
  · rwa [akeys_aset_of_mem h]
  · rw [akeys_aset_of_not_mem h]
    simp [List.nodup_append, hn, h]

theorem alookup_bumpCount_self [DecidableEq α] (k : α) (l : List (α × Nat)) :
    alookup k (bumpCount k l) = some (countValue k l + 1) := by
  induction l with
  | nil => simp [bumpCount, alookup, countValue]
  | cons hd tl ih =>
    obtain ⟨k2, n2⟩ := hd
    by_cases h : k2 = k <;> simp [bumpCount, alookup, countValue, h, ih]

theorem alookup_bumpCount_ne [DecidableEq α] {k k2 : α} (h : k2 ≠ k)
    (l : List (α × Nat)) : alookup k (bumpCount k2 l) = alookup k l := by
  induction l with
  | nil => simp [bumpCount, alookup, h]
  | cons hd tl ih =>
    obtain ⟨k3, n3⟩ := hd
    simp only [bumpCount]
    by_cases h3 : k3 = k2
    · subst h3
      rw [if_pos rfl]
      simp [alookup, h]
    · rw [if_neg h3]
      by_cases h4 : k3 = k
      · subst h4
        simp [alookup]
      · simp [alookup, h4, ih]

theorem akeys_bumpCount_of_mem [DecidableEq α] {k : α} {l : List (α × Nat)}
    (h : k ∈ akeys l) : akeys (bumpCount k l) = akeys l := by
  induction l with
  | nil => simp at h
  | cons hd tl ih =>
    obtain ⟨k2, n2⟩ := hd
    by_cases h2 : k2 = k
    · simp [bumpCount, h2]
    · rw [akeys_cons, List.mem_cons] at h
      rcases h with h | h
      · exact absurd h.symm h2
      · simp [bumpCount, h2, ih h]

theorem akeys_bumpCount_of_not_mem [DecidableEq α] {k : α} {l : List (α × Nat)}
    (h : k ∉ akeys l) : akeys (bumpCount k l) = akeys l ++ [k] := by
  induction l with
  | nil => simp [bumpCount]
  | cons hd tl ih =>
    obtain ⟨k2, n2⟩ := hd
    rw [akeys_cons, List.mem_cons, not_or] at h
    have h2 : k2 ≠ k := fun he => h.1 he.symm
    simp [bumpCount, h2, ih h.2]

theorem mem_akeys_bumpCount [DecidableEq α] (k2 k : α) (l : List (α × Nat)) :
    k2 ∈ akeys (bumpCount k l) ↔ k2 = k ∨ k2 ∈ akeys l := by
  by_cases h : k ∈ akeys l
  · rw [akeys_bumpCount_of_mem h]
    constructor
    · exact fun hm => Or.inr hm
    · rintro (rfl | hm) <;> [exact h; exact hm]
  · rw [akeys_bumpCount_of_not_mem h]
    simp [or_comm]

theorem nodup_akeys_bumpCount [DecidableEq α] (k : α) {l : List (α × Nat)}
    (hn : (akeys l).Nodup) : (akeys (bumpCount k l)).Nodup := by
  by_cases h : k ∈ akeys l
  · rwa [akeys_bumpCount_of_mem h]
  · rw [akeys_bumpCount_of_not_mem h]
    simp [List.nodup_append, hn, h]

/-! # Lemmas about recursive schema resolution -/

theorem runAll_keys_mono (f : String → Schemas → Except Err Schemas)
    (hf : ∀ d s1 s2, f d s1 = .ok s2 → ∀ k, k ∈ akeys s1 → k ∈ akeys s2) :
    ∀ ds st st2, runAll f ds st = .ok st2 → ∀ k, k ∈ akeys st → k ∈ akeys st2 := by
  intro ds
  induction ds with
  | nil =>
    intro st st2 h k hk
    simp only [runAll] at h
    cases h
    exact hk
  | cons d ds ih =>
    intro st st2 h k hk
    simp only [runAll] at h
    split at h
    · rename_i st3 hfd
      exact ih st3 st2 h k (hf d st st3 hfd k hk)
    · rename_i e hfd
      simp at h

theorem runAll_nodup (f : String → Schemas → Except Err Schemas)
    (hf : ∀ d s1 s2, f d s1 = .ok s2 → (akeys s1).Nodup → (akeys s2).Nodup) :
    ∀ ds st st2, runAll f ds st = .ok st2 → (akeys st).Nodup → (akeys st2).Nodup := by
  intro ds
  induction ds with
  | nil =>
    intro st st2 h hn
    simp only [runAll] at h
    cases h
    exact hn
  | cons d ds ih =>
    intro st st2 h hn
    simp only [runAll] at h
    split at h
    · rename_i st3 hfd
      exact ih st3 st2 h (hf d st st3 hfd hn)
    · rename_i e hfd
      simp at h

theorem buildDefinitionRecursively_keys_mono (cfg : Config) (rs : TypeResolver) :
    ∀ fuel name st st2, buildDefinitionRecursively cfg rs fuel name st = .ok st2 →
      ∀ k, k ∈ akeys st → k ∈ akeys st2 := by
  intro fuel
  induction fuel with
  | zero =>
    intro name st st2 h
    simp [buildDefinitionRecursively] at h
  | succ n ih =>
    intro name st st2 h k hk
    simp only [buildDefinitionRecursively] at h
    split at h
    · rename_i v hv
      cases h
      exact hk
    · rename_i hnone
      split at h
      · rename_i item hitem
        refine runAll_keys_mono _ (fun d s1 s2 hok => ih d s1 s2 hok) _ _ _ h k ?_
        exact (mem_akeys_aset k _ _ st).mpr (Or.inr hk)
      · rename_i hmiss
        simp at h

theorem buildDefinitionRecursively_nodup (cfg : Config) (rs : TypeResolver) :
    ∀ fuel name st st2, buildDefinitionRecursively cfg rs fuel name st = .ok st2 →
      (akeys st).Nodup → (akeys st2).Nodup := by
  intro fuel
  induction fuel with
  | zero =>
    intro name st st2 h
    simp [buildDefinitionRecursively] at h
  | succ n ih =>
    intro name st st2 h hn
    simp only [buildDefinitionRecursively] at h
    split at h
    · rename_i v hv
      cases h
      exact hn
    · rename_i hnone
      split at h
      · rename_i item hitem
        refine runAll_nodup _ (fun d s1 s2 hok => ih d s1 s2 hok) _ _ _ h ?_
        exact nodup_akeys_aset _ _ hn
      · rename_i hmiss
        simp at h

theorem buildDefinitionRecursively_self_mem (cfg : Config) (rs : TypeResolver)
    (fuel : Nat) (name : String) (st st2 : Schemas)
    (h : buildDefinitionRecursively cfg rs fuel name st = .ok st2) :
    (cfg.getDefinitionName name).1 ∈ akeys st2 := by
  cases fuel with
  | zero => simp [buildDefinitionRecursively] at h
  | succ n =>
    simp only [buildDefinitionRecursively] at h
    split at h
    · rename_i v hv
      cases h
      exact mem_akeys_of_alookup hv
    · rename_i hnone
      split at h
      · rename_i item hitem
        refine runAll_keys_mono _
          (fun d s1 s2 hok => buildDefinitionRecursively_keys_mono cfg rs n d s1 s2 hok)
          _ _ _ h _ ?_
        exact (mem_akeys_aset _ _ _ st).mpr (Or.inl rfl)
      · rename_i hmiss
        simp at h

theorem buildDefinitionRecursively_mem_noop (cfg : Config) (rs : TypeResolver)
    (fuel : Nat) (name : String) (st : Schemas)
    (h : (cfg.getDefinitionName name).1 ∈ akeys st) :
    buildDefinitionRecursively cfg rs (fuel + 1) name st = .ok st := by
  obtain ⟨v, hv⟩ := alookup_isSome_of_mem h
  simp [buildDefinitionRecursively, hv]

/-- C3: resolving the same type name twice — directly, or via a dependency
path that reaches a display name already in the map — yields the same
reference string both times and adds exactly one entry (keyed by the
display name) to the schema map; the second resolution is a no-op on the
map. -/
theorem schema_memoization (cfg : Config) (rs : TypeResolver) (fuel : Nat)
    (name : String) (st : Schemas) (ref : String) (st2 : Schemas)
    (h : buildDefinitionForType cfg rs fuel name st = .ok (ref, st2)) :
    (∀ f2, buildDefinitionForType cfg rs (f2 + 1) name st2 = .ok (ref, st2))
    ∧ ((akeys st).Nodup → List.count (cfg.getDefinitionName name).1 (akeys st2) = 1)
    ∧ (∀ f2 name2 st3, (cfg.getDefinitionName name2).1 ∈ akeys st3 →
        buildDefinitionRecursively cfg rs (f2 + 1) name2 st3 = .ok st3) := by
  simp only [buildDefinitionForType] at h
  split at h
  · simp at h
  · rename_i st' hbdr
    cases h
    have hmem : (cfg.getDefinitionName name).1 ∈ akeys st2 :=
      buildDefinitionRecursively_self_mem cfg rs fuel name st st2 hbdr
    refine ⟨?_, ?_, ?_⟩
    · intro f2
      simp only [buildDefinitionForType]
      rw [buildDefinitionRecursively_mem_noop cfg rs f2 name st2 hmem]
    · intro hnd
      exact List.count_eq_one_of_mem
        (buildDefinitionRecursively_nodup cfg rs fuel name st st2 hbdr hnd) hmem
    · intro f2 name2 st3 hmem2
      exact buildDefinitionRecursively_mem_noop cfg rs f2 name2 st3 hmem2

/-- Witness for C3 at the one-definition resolver `rsT`. -/
theorem schema_memoization_witness :
    (∀ f2, buildDefinitionForType cfg0 rsT (f2 + 1) "T" [("T", ({} : Schema))] =
      .ok ("#/components/schemas/T", [("T", ({} : Schema))]))
    ∧ ((akeys ([] : Schemas)).Nodup →
        List.count (cfg0.getDefinitionName "T").1 (akeys [("T", ({} : Schema))]) = 1)
    ∧ (∀ f2 name2 st3, (cfg0.getDefinitionName name2).1 ∈ akeys st3 →
        buildDefinitionRecursively cfg0 rsT (f2 + 1) name2 st3 = .ok st3) :=
  schema_memoization cfg0 rsT 1 "T" [] "#/components/schemas/T" [("T", {})] rfl

/-- C4: on the mutually recursive definitions `A -> B -> A`, resolution of
`A` from the empty schema map terminates (every fuel greater than or equal
to the threshold 3 yields the same successful result — the insert-before-
recurse discipline makes the second visit of `A` return at once) and the
resulting schema map has exactly two entries. -/
theorem cycle_safety :
    ∀ fuel : Nat,
      buildDefinitionRecursively cfg0 rsAB (fuel + 3) "A" [] =
        .ok [("A", ({} : Schema)), ("B", ({} : Schema))] ∧
      ([("A", ({} : Schema)), ("B", ({} : Schema))] : Schemas).length = 2 :=
  fun _ => ⟨rfl, rfl⟩

/-! # Parameter building (C6) -/

/-- C6: `buildParameter` maps the parameter kinds to the location tags
path→"path", query→"query", header→"header", and returns an error exactly
when the kind is outside {path, query, header} or the kind is path and the
parameter is not marked required. -/
theorem buildParameter_kind_spec (pd : ParameterData) (bodySample : Option String) :
    ((∃ e, buildParameter pd bodySample = .error e) ↔
      (¬(pd.Kind = .path ∨ pd.Kind = .query ∨ pd.Kind = .header)
        ∨ (pd.Kind = .path ∧ ¬pd.Required)))
    ∧ (∀ p, buildParameter pd bodySample = .ok p →
        ((pd.Kind = .path → p.In = "path")
          ∧ (pd.Kind = .query → p.In = "query")
          ∧ (pd.Kind = .header → p.In = "header"))) := by
  obtain ⟨n, d, req, k⟩ := pd
  refine ⟨?_, ?_⟩
  · cases k <;> cases req <;> simp [buildParameter]
  · intro p h
    cases k <;> cases req <;>
      simp [buildParameter] at h <;>
      simp [← h]

/-- Witness for C6: a non-required path parameter is rejected. -/
theorem buildParameter_kind_spec_witness :
    ∃ e, buildParameter pdBadPath none = .error e :=
  (buildParameter_kind_spec pdBadPath none).1.mpr (Or.inr ⟨rfl, by decide⟩)

/-! # Common-response merging (C7) -/

theorem mergeCommonResponses_lookup_some :
    ∀ (cr m : List (Nat × Response)) (code : Nat) (r : Response),
      alookup code m = some r →
      alookup code (mergeCommonResponses cr m) = some r := by
  intro cr
  induction cr with
  | nil =>
    intro m code r h
    simpa [mergeCommonResponses] using h
  | cons hd rest ih =>
    intro m code r h
    obtain ⟨c2, r2⟩ := hd
    simp only [mergeCommonResponses]
    cases hl : alookup c2 m with
    | some rr =>
      exact ih m code r h
    | none =>
      have hne : c2 ≠ code := by
        intro he
        rw [he, h] at hl
        cases hl
      exact ih (aset c2 r2 m) code r (by rw [alookup_aset_ne hne]; exact h)

theorem mergeCommonResponses_lookup_none :
    ∀ (cr m : List (Nat × Response)) (code : Nat),
      alookup code m = none →
      alookup code (mergeCommonResponses cr m) = alookup code cr := by
  intro cr
  induction cr with
  | nil =>
    intro m code h
    simpa [mergeCommonResponses] using h
  | cons hd rest ih =>
    intro m code h
    obtain ⟨c2, r2⟩ := hd
    simp only [mergeCommonResponses]
    by_cases hc : c2 = code
    · subst hc
      rw [h]
      have : alookup c2 (aset c2 r2 m) = some r2 := alookup_aset_self c2 r2 m
      rw [mergeCommonResponses_lookup_some rest _ c2 r2 this]
      simp [alookup]
    · cases hl : alookup c2 m with
      | some rr =>
        have h2 := ih m code h
        simp only [alookup, if_neg hc]
        exact h2
      | none =>
        have h2 := ih (aset c2 r2 m) code (by rw [alookup_aset_ne hc]; exact h)
        simp only [alookup, if_neg hc]
        exact h2

/-- C7: when the configured common-responses table is merged into an
operation's responses, a common response is copied in for a status code
only when that code is absent; a response already present is never
overwritten. -/
theorem common_responses_never_override (cr m : List (Nat × Response)) (code : Nat) :
    (∀ r, alookup code m = some r →
      alookup code (mergeCommonResponses cr m) = some r)
    ∧ (alookup code m = none →
      alookup code (mergeCommonResponses cr m) = alookup code cr) :=
  ⟨fun r h => mergeCommonResponses_lookup_some cr m code r h,
   fun h => mergeCommonResponses_lookup_none cr m code h⟩

/-- Witness for C7: an explicit 200 survives the merge, an absent 500 is
copied from the table. -/
theorem common_responses_never_override_witness :
    alookup 200 (mergeCommonResponses [(200, respCommon), (500, respExtra)]
      [(200, respExplicit)]) = some respExplicit
    ∧ alookup 500 (mergeCommonResponses [(200, respCommon), (500, respExtra)]
      [(200, respExplicit)]) = some respExtra := by
  constructor
  · exact (common_responses_never_override [(200, respCommon), (500, respExtra)]
      [(200, respExplicit)] 200).1 respExplicit rfl
  · rw [(common_responses_never_override [(200, respCommon), (500, respExtra)]
      [(200, respExplicit)] 500).2 rfl]
    rfl

/-! # Duplicate path rejection (C5) -/

/-- C5: when a retained, already-normalized path template is reached whose
routes hoist successfully but which is already installed in the path map,
the per-path loop stops with a duplicate-path error and leaves the path map
unchanged (the duplicate is not installed). -/
theorem duplicate_path_rejected (cfg : Config) (commonParams : List Parameter)
    (path : String) (routes : List Route) (rest : List (String × List Route))
    (acc : Paths) (pi0 : Builder3.Path) (cm : List (ParamKey × Parameter))
    (hnorm : goHasSuffix path ":*\x7d" = false)
    (hign : trieHasMatch cfg.ignorePrefixes path = false)
    (hcommon : findCommonParameters routes = .ok cm)
    (hdup : alookup path acc = some pi0) :
    buildPathsForService cfg commonParams ((path, routes) :: rest) acc =
      (acc, some (.duplicatePath path))
    ∧ (BuildOpenAPISpec [wsA, wsA] cfg0).2 = some (.duplicatePath "/a") := by
  refine ⟨?_, rfl⟩
  simp [buildPathsForService, hnorm, hign, hcommon, hdup]

/-- Witness for C5: installing `/a` a second time fails with
DuplicatePath, keeping the original entry. -/
theorem duplicate_path_rejected_witness :
    goHasSuffix "/a" ":*\x7d" = false
    ∧ trieHasMatch cfg0.ignorePrefixes "/a" = false
    ∧ findCommonParameters [emptyRoute] = .ok []
    ∧ alookup "/a" accA = some {}
    ∧ buildPathsForService cfg0 [] [("/a", [emptyRoute])] accA =
        (accA, some (.duplicatePath "/a"))
    ∧ (BuildOpenAPISpec [wsA, wsA] cfg0).2 = some (.duplicatePath "/a") :=
  ⟨rfl, rfl, rfl, rfl,
    (duplicate_path_rejected cfg0 [] "/a" [emptyRoute] [] accA {} [] rfl rfl rfl rfl).1,
    (duplicate_path_rejected cfg0 [] "/a" [emptyRoute] [] accA {} [] rfl rfl rfl rfl).2⟩

/-! # Default-response fallback (C8) -/

/-- C8 counterexample: with a non-empty common-responses table, a route
with zero declared error responses and no write sample yields an operation
whose status-code map is non-empty (it carries the common response) and
whose default response is nil rather than the configured default. -/
theorem default_fallback_counterexample :
    buildOperations cfgC8 rs0 1 emptyRoute [] [] =
      .ok ({ Responses := { StatusCodeResponses := [(500, respCommon)]
                            Default := none } }, [])
    ∧ cfgC8.defaultResponse = some respDefault
    ∧ some respDefault ≠ (none : Option Response) :=
  ⟨rfl, rfl, by decide⟩

/-- C8 (amended): for every route with zero declared error responses and
no write sample, under a configuration whose common-responses table is
empty, the built Operation's only response content is the configured
default-response object: its status-code response map is empty and its
default response equals the configured default. -/
theorem default_fallback_amended (cfg : Config) (rs : TypeResolver) (fuel : Nat)
    (route : Route) (m : List (ParamKey × Parameter)) (st st2 : Schemas)
    (op : Operation)
    (hre : route.ResponseErrors = [])
    (hws : route.WriteSample = none)
    (hcr : cfg.commonResponses = [])
    (hok : buildOperations cfg rs fuel route m st = .ok (op, st2)) :
    op.Responses.StatusCodeResponses = [] ∧
      op.Responses.Default = cfg.defaultResponse := by
  simp only [buildOperations, hre, hws, hcr, buildRouteResponses,
    mergeCommonResponses, List.isEmpty, if_true] at hok
  split at hok
  · simp at hok
  · split at hok
    · simp at hok
    · rename_i params hparams
      cases hok
      exact ⟨rfl, rfl⟩

/-- Witness for C8 at the empty-common-responses configuration `cfgD8`. -/
theorem default_fallback_witness :
    ({ Responses := { StatusCodeResponses := []
                      Default := some respDefault } } : Operation).Responses.StatusCodeResponses = []
    ∧ ({ Responses := { StatusCodeResponses := []
                        Default := some respDefault } } : Operation).Responses.Default =
        cfgD8.defaultResponse :=
  default_fallback_amended cfgD8 rs0 1 emptyRoute [] [] []
    { Responses := { StatusCodeResponses := [], Default := some respDefault } }
    rfl rfl rfl rfl

/-! # End-to-end build (C2) -/

/-- C2 counterexample: the build installs the path `/foo/test/{path}` with
its single hoisted parameter, but no operations are attached to the
document's path item — in particular the document has no GET operation
whose parameter list could contain `pretty` — because the per-route
operation-building loop of `buildOpenAPISpec` is an unimplemented TODO. -/
theorem end_to_end_counterexample :
    BuildOpenAPISpec [ws0] cfg0 =
      (some { paths := [("/foo/test/{path}", { Parameters := [hoistedPathParam] })]
              schemas := [] }, none)
    ∧ ({ Parameters := [hoistedPathParam] } : Builder3.Path).Get = none
    ∧ ({ Parameters := [hoistedPathParam] } : Builder3.Path).Post = none :=
  ⟨rfl, rfl, rfl⟩

/-- C2 (amended): building the two-route service installs the path with
exactly one hoisted parameter (`path`, kind path) and no operations in the
document (operation building is an unimplemented TODO); invoking
`buildOperations` directly on the GET route with the hoisted key set yields
a parameter list containing only `pretty`, and on the POST route an empty
parameter list. -/
theorem end_to_end_amended :
    BuildOpenAPISpec [ws0] cfg0 =
      (some { paths := [("/foo/test/{path}", { Parameters := [hoistedPathParam] })]
              schemas := [] }, none)
    ∧ findCommonParameters [rGet, rPost] = .ok [(("path", .path), hoistedPathParam)]
    ∧ (buildOperations cfg0 rs0 1 rGet [(("path", .path), hoistedPathParam)] []).map
        (fun p => p.1.Parameters) = .ok [builtPrettyParam]
    ∧ (buildOperations cfg0 rs0 1 rPost [(("path", .path), hoistedPathParam)] []).map
        (fun p => p.1.Parameters) = .ok [] :=
  ⟨rfl, rfl, rfl, rfl⟩

/-! # Non-nil document and partial state (C10) -/

/-- C10: `BuildOpenAPISpec` always returns a non-nil document value, also
when it returns an error; and on error the document may already contain
path entries installed by iterations that completed before the failure —
with two services both serving `/a`, the build fails with DuplicatePath yet
the returned document still contains the `/a` entry installed by the first
service. -/
theorem build_returns_document_partial_state :
    (∀ (webServices : List WebService) (cfg : Config),
      (BuildOpenAPISpec webServices cfg).1.isSome = true)
    ∧ BuildOpenAPISpec [wsA, wsA] cfg0 =
        (some { paths := [("/a", { Parameters := [] })], schemas := [] },
         some (.duplicatePath "/a"))
    ∧ alookup "/a" [("/a", ({ Parameters := [] } : Builder3.Path))] =
        some { Parameters := [] } :=
  ⟨fun _ _ => rfl, rfl, rfl⟩

/-! # The per-route parameter scan (towards C1 and C9) -/

theorem tallyParams_seen_disjoint :
    ∀ (ps : List RestfulParameter) (seen : List ParamKey)
      (counts : List (ParamKey × Nat)) (datas : List (ParamKey × ParameterData)) out,
      tallyParams ps seen counts datas = .ok out →
      ∀ k ∈ seen, k ∉ ps.map mapKeyFromParam := by
  intro ps
  induction ps with
  | nil =>
    intro seen c d out h k hk
    simp
  | cons p ps ih =>
    intro seen c d out h k hk
    simp only [tallyParams] at h
    split at h
    · simp at h
    · rename_i hnotin
      simp only [List.map_cons, List.mem_cons, not_or]
      refine ⟨?_, ?_⟩
      · intro he
        rw [he] at hk
        exact hnotin hk
      · exact ih _ _ _ _ h k (List.mem_cons_of_mem _ hk)

theorem tallyParams_countValue :
    ∀ (ps : List RestfulParameter) seen counts datas out,
      tallyParams ps seen counts datas = .ok out →
      ∀ k, countValue k out.1 =
        countValue k counts + (if k ∈ ps.map mapKeyFromParam then 1 else 0) := by
  intro ps
  induction ps with
  | nil =>
    intro seen c d out h k
    simp only [tallyParams] at h
    cases h
    simp
  | cons p ps ih =>
    intro seen c d out h k
    simp only [tallyParams] at h
    split at h
    · simp at h
    · rename_i hnotin
      have hrec := ih _ _ _ _ h k
      by_cases hk : k = mapKeyFromParam p
      · have hnot : k ∉ ps.map mapKeyFromParam := by
          rw [hk]
          exact tallyParams_seen_disjoint ps _ _ _ _ h _ (List.mem_cons_self _ _)
        rw [hrec, if_neg hnot]
        have hbump : countValue k (bumpCount (mapKeyFromParam p) c) = countValue k c + 1 := by
          rw [← hk]
          simp [countValue, alookup_bumpCount_self]
        rw [hbump]
        simp [List.mem_cons, hk]
      · have hne : mapKeyFromParam p ≠ k := fun he => hk he.symm
        have hbump : countValue k (bumpCount (mapKeyFromParam p) c) = countValue k c := by
          simp [countValue, alookup_bumpCount_ne hne]
        rw [hrec, hbump]
        simp [List.mem_cons, hk]

theorem tallyParams_mem_counts :
    ∀ (ps : List RestfulParameter) seen counts datas out,
      tallyParams ps seen counts datas = .ok out →
      ∀ k, k ∈ akeys out.1 ↔ k ∈ akeys counts ∨ k ∈ ps.map mapKeyFromParam := by
  intro ps
  induction ps with
  | nil =>
    intro seen c d out h k
    simp only [tallyParams] at h
    cases h
    simp
  | cons p ps ih =>
    intro seen c d out h k
    simp only [tallyParams] at h
    split at h
    · simp at h
    · rename_i hnotin
      rw [ih _ _ _ _ h k, mem_akeys_bumpCount, List.map_cons, List.mem_cons]
      tauto

theorem tallyParams_data_src :
    ∀ (ps : List RestfulParameter) seen counts datas out,
      tallyParams ps seen counts datas = .ok out →
      ∀ k pd, alookup k out.2 = some pd →
        alookup k datas = some pd ∨
          ∃ p ∈ ps, p.data = pd ∧ mapKeyFromParam p = k := by
  intro ps
  induction ps with
  | nil =>
    intro seen c d out h k pd hl
    simp only [tallyParams] at h
    cases h
    exact Or.inl hl
  | cons p ps ih =>
    intro seen c d out h k pd hl
    simp only [tallyParams] at h
    split at h
    · simp at h
    · rename_i hnotin
      rcases ih _ _ _ _ h k pd hl with hc | ⟨q, hq, hqd, hqk⟩
      · by_cases hk : mapKeyFromParam p = k
        · right
          refine ⟨p, List.mem_cons_self _ _, ?_, hk⟩
          rw [← hk, alookup_aset_self] at hc
          cases hc
          rfl
        · left
          rwa [alookup_aset_ne hk] at hc
      · exact Or.inr ⟨q, List.mem_cons_of_mem _ hq, hqd, hqk⟩

theorem tallyParams_counts_sub :
    ∀ (ps : List RestfulParameter) seen counts datas out,
      tallyParams ps seen counts datas = .ok out →
      (∀ k, k ∈ akeys counts → k ∈ akeys datas) →
      ∀ k, k ∈ akeys out.1 → k ∈ akeys out.2 := by
  intro ps
  induction ps with
  | nil =>
    intro seen c d out h hsub k hk
    simp only [tallyParams] at h
    cases h
    exact hsub k hk
  | cons p ps ih =>
    intro seen c d out h hsub k hk
    simp only [tallyParams] at h
    split at h
    · simp at h
    · rename_i hnotin
      refine ih _ _ _ _ h ?_ k hk
      intro k2 hk2
      rw [mem_akeys_bumpCount] at hk2
      rcases hk2 with rfl | hk2
      · exact (mem_akeys_aset _ _ p.data d).mpr (Or.inl rfl)
      · exact (mem_akeys_aset _ _ p.data d).mpr (Or.inr (hsub k2 hk2))

theorem tallyParams_counts_nodup :
    ∀ (ps : List RestfulParameter) seen counts datas out,
      tallyParams ps seen counts datas = .ok out →
      (akeys counts).Nodup → (akeys out.1).Nodup := by
  intro ps
  induction ps with
  | nil =>
    intro seen c d out h hn
    simp only [tallyParams] at h
    cases h
    exact hn
  | cons p ps ih =>
    intro seen c d out h hn
    simp only [tallyParams] at h
    split at h
    · simp at h
    · rename_i hnotin
      exact ih _ _ _ _ h (nodup_akeys_bumpCount _ hn)

theorem tallyParams_ok :
    ∀ (ps : List RestfulParameter) (seen : List ParamKey) counts datas,
      (ps.map mapKeyFromParam).Nodup →
      (∀ k ∈ ps.map mapKeyFromParam, k ∉ seen) →
      ∃ out, tallyParams ps seen counts datas = .ok out := by
  intro ps
  induction ps with
  | nil =>
    intro seen c d hn hdisj
    exact ⟨(c, d), rfl⟩
  | cons p ps ih =>
    intro seen c d hn hdisj
    simp only [tallyParams]
    have hnotin : mapKeyFromParam p ∉ seen :=
      hdisj _ (by simp)
    rw [if_neg hnotin]
    rw [List.map_cons, List.nodup_cons] at hn
    refine ih _ _ _ hn.2 ?_
    intro k hk
    simp only [List.mem_cons, not_or]
    refine ⟨?_, hdisj k (by simp [hk])⟩
    intro he
    rw [he] at hk
    exact hn.1 hk

/-! # The route loop of findCommonParameters -/

theorem declaresKey_iff_mem (r : Route) (k : ParamKey) :
    declaresKey r k ↔ k ∈ r.ParameterDocs.map mapKeyFromParam := by
  simp [declaresKey, List.mem_map]

theorem tallyRoutes_countValue :
    ∀ (routes : List Route) counts datas out,
      tallyRoutes routes counts datas = .ok out →
      ∀ k, countValue k out.1 =
        countValue k counts + routes.countP (fun r => decide (declaresKey r k)) := by
  intro routes
  induction routes with
  | nil =>
    intro c d out h k
    simp only [tallyRoutes] at h
    cases h
    simp
  | cons r rs ih =>
    intro c d out h k
    simp only [tallyRoutes] at h
    split at h
    · simp at h
    · rename_i c2 d2 hts
      have h1 := tallyParams_countValue r.ParameterDocs [] c d (c2, d2) hts k
      have h2 := ih _ _ _ h k
      rw [List.countP_cons]
      by_cases hd : declaresKey r k
      · rw [declaresKey_iff_mem] at hd
        simp only [hd, if_true] at h1
        rw [h2, h1]
        simp only [declaresKey_iff_mem, hd]
        simp
        omega
      · have hd2 : k ∉ r.ParameterDocs.map mapKeyFromParam := by
          rwa [declaresKey_iff_mem] at hd
        simp only [hd2, if_false] at h1
        rw [h2, h1]
        simp [hd]

theorem tallyRoutes_mem_counts :
    ∀ (routes : List Route) counts datas out,
      tallyRoutes routes counts datas = .ok out →
      ∀ k, k ∈ akeys out.1 ↔ k ∈ akeys counts ∨ ∃ r ∈ routes, declaresKey r k := by
  intro routes
  induction routes with
  | nil =>
    intro c d out h k
    simp only [tallyRoutes] at h
    cases h
    simp
  | cons r rs ih =>
    intro c d out h k
    simp only [tallyRoutes] at h
    split at h
    · simp at h
    · rename_i c2 d2 hts
      rw [ih _ _ _ h k,
        tallyParams_mem_counts r.ParameterDocs [] c d (c2, d2) hts k]
      simp only [← declaresKey_iff_mem, List.mem_cons]
      constructor
      · rintro ((hc | hr) | ⟨r2, hr2, hd2⟩)
        · exact Or.inl hc
        · exact Or.inr ⟨r, Or.inl rfl, hr⟩
        · exact Or.inr ⟨r2, Or.inr hr2, hd2⟩
      · rintro (hc | ⟨r2, (rfl | hr2), hd2⟩)
        · exact Or.inl (Or.inl hc)
        · exact Or.inl (Or.inr hd2)
        · exact Or.inr ⟨r2, hr2, hd2⟩

theorem tallyRoutes_data_src :
    ∀ (routes : List Route) counts datas out,
      tallyRoutes routes counts datas = .ok out →
      ∀ k pd, alookup k out.2 = some pd →
        alookup k datas = some pd ∨
          ∃ r ∈ routes, ∃ p ∈ r.ParameterDocs,
            p.data = pd ∧ mapKeyFromParam p = k := by
  intro routes
  induction routes with
  | nil =>
    intro c d out h k pd hl
    simp only [tallyRoutes] at h
    cases h
    exact Or.inl hl
  | cons r rs ih =>
    intro c d out h k pd hl
    simp only [tallyRoutes] at h
    split at h
    · simp at h
    · rename_i c2 d2 hts
      rcases ih _ _ _ h k pd hl with hc | ⟨r2, hr2, p2, hp2, hd2, hk2⟩
      · rcases tallyParams_data_src r.ParameterDocs [] c d (c2, d2) hts k pd hc with
          hc2 | ⟨p2, hp2, hd2, hk2⟩
        · exact Or.inl hc2
        · exact Or.inr ⟨r, List.mem_cons_self _ _, p2, hp2, hd2, hk2⟩
      · exact Or.inr ⟨r2, List.mem_cons_of_mem _ hr2, p2, hp2, hd2, hk2⟩

theorem tallyRoutes_counts_sub :
    ∀ (routes : List Route) counts datas out,
      tallyRoutes routes counts datas = .ok out →
      (∀ k, k ∈ akeys counts → k ∈ akeys datas) →
      ∀ k, k ∈ akeys out.1 → k ∈ akeys out.2 := by
  intro routes
  induction routes with
  | nil =>
    intro c d out h hsub k hk
    simp only [tallyRoutes] at h
    cases h
    exact hsub k hk
  | cons r rs ih =>
    intro c d out h hsub k hk
    simp only [tallyRoutes] at h
    split at h
    · simp at h
    · rename_i c2 d2 hts
      exact ih _ _ _ h
        (tallyParams_counts_sub r.ParameterDocs [] c d (c2, d2) hts hsub) k hk

theorem tallyRoutes_counts_nodup :
    ∀ (routes : List Route) counts datas out,
      tallyRoutes routes counts datas = .ok out →
      (akeys counts).Nodup → (akeys out.1).Nodup := by
  intro routes
  induction routes with
  | nil =>
    intro c d out h hn
    simp only [tallyRoutes] at h
    cases h
    exact hn
  | cons r rs ih =>
    intro c d out h hn
    simp only [tallyRoutes] at h
    split at h
    · simp at h
    · rename_i c2 d2 hts
      exact ih _ _ _ h
        (tallyParams_counts_nodup r.ParameterDocs [] c d (c2, d2) hts hn)

theorem tallyRoutes_ok :
    ∀ (routes : List Route) counts datas,
      (∀ r ∈ routes, (r.ParameterDocs.map mapKeyFromParam).Nodup) →
      ∃ out, tallyRoutes routes counts datas = .ok out := by
  intro routes
  induction routes with
  | nil =>
    intro c d hn
    exact ⟨(c, d), rfl⟩
  | cons r rs ih =>
    intro c d hn
    obtain ⟨⟨c2, d2⟩, h1⟩ :=
      tallyParams_ok r.ParameterDocs [] c d (hn r (List.mem_cons_self _ _))
        (fun k _ => by simp)
    simp only [tallyRoutes]
    rw [h1]
    exact ih c2 d2 (fun r2 hr2 => hn r2 (List.mem_cons_of_mem _ hr2))

/-! # The hoisting loop of findCommonParameters -/

theorem hoistCommon_mem :
    ∀ (counts : List (ParamKey × Nat)) (total : Nat)
      (datas : List (ParamKey × ParameterData)) (acc m : List (ParamKey × Parameter)),
      (akeys counts).Nodup →
      hoistCommon total datas counts acc = .ok m →
      ∀ k, k ∈ akeys m ↔
        k ∈ akeys acc ∨
          (alookup k counts = some total ∧
            ((alookup k datas).getD zeroParameterData).Kind ≠ .body) := by
  intro counts
  induction counts with
  | nil =>
    intro total datas acc m hn h k
    simp only [hoistCommon] at h
    cases h
    simp
  | cons hd rest ih =>
    intro total datas acc m hn h k
    obtain ⟨k0, n0⟩ := hd
    rw [akeys_cons, List.nodup_cons] at hn
    simp only [hoistCommon] at h
    split at h
    · rename_i hq
      split at h
      · rename_i e he
        simp at h
      · rename_i bp hbp
        rw [ih total datas _ m hn.2 h k]
        by_cases hk : k = k0
        · subst hk
          obtain ⟨hq1, hq2⟩ := hq
          subst hq1
          simp only [akeys_append, List.mem_append, akeys_cons, akeys_nil,
            List.mem_singleton, alookup]
          simp [hq2]
        · have hk2 : k0 ≠ k := fun he => hk he.symm
          simp only [akeys_append, List.mem_append, akeys_cons, akeys_nil,
            List.mem_singleton, alookup, if_neg hk2]
          simp [hk]
    · rename_i hnq
      rw [ih total datas acc m hn.2 h k]
      by_cases hk : k = k0
      · subst hk
        have hnone : alookup k rest = none := (alookup_eq_none _ _).mpr hn.1
        simp only [alookup, if_pos rfl, hnone]
        constructor
        · rintro (hacc | ⟨he, _⟩)
          · exact Or.inl hacc
          · cases he
        · rintro (hacc | ⟨he, hcond⟩)
          · exact Or.inl hacc
          · cases he
            exact absurd ⟨rfl, hcond⟩ hnq
      · have hk2 : k0 ≠ k := fun he => hk he.symm
        simp [alookup, if_neg hk2]

theorem hoistCommon_form_error :
    ∀ (counts : List (ParamKey × Nat)) (total : Nat)
      (datas : List (ParamKey × ParameterData)) (acc : List (ParamKey × Parameter)),
      (∀ k, k ∈ akeys counts → ∃ pd, alookup k datas = some pd) →
      (∀ k, k ∈ akeys counts → ∀ pd, alookup k datas = some pd →
        pd.Kind ≠ .form → pd.Kind ≠ .body →
        ∃ bp, buildParameter pd none = .ok bp) →
      (∃ k pdF, (k, total) ∈ counts ∧ alookup k datas = some pdF ∧ pdF.Kind = .form) →
      ∃ pd, hoistCommon total datas counts acc = .error (.unsupportedKind pd) ∧
        pd.Kind = .form := by
  intro counts
  induction counts with
  | nil =>
    intro total datas acc _ _ hform
    obtain ⟨k, pdF, hmem, _, _⟩ := hform
    simp at hmem
  | cons hd rest ih =>
    intro total datas acc hdata hbuild hform
    obtain ⟨k0, n0⟩ := hd
    obtain ⟨pd0, hpd0⟩ := hdata k0 (by simp)
    simp only [hoistCommon]
    by_cases hq : n0 = total ∧ ((alookup k0 datas).getD zeroParameterData).Kind ≠ .body
    · rw [if_pos hq]
      by_cases hf : pd0.Kind = .form
      · have hbe : buildParameter ((alookup k0 datas).getD zeroParameterData) none =
            .error (.unsupportedKind pd0) := by
          rw [hpd0, Option.getD_some]
          obtain ⟨n1, d1, r1, kind1⟩ := pd0
          simp only at hf
          subst hf
          rfl
        rw [hbe]
        exact ⟨pd0, rfl, hf⟩
      · have hnb : pd0.Kind ≠ .body := by
          have := hq.2
          rwa [hpd0, Option.getD_some] at this
        obtain ⟨bp, hbp⟩ := hbuild k0 (by simp) pd0 hpd0 hf hnb
        rw [hpd0, Option.getD_some, hbp]
        refine ih total datas _ (fun k hk => hdata k (by simp [hk]))
          (fun k hk => hbuild k (by simp [hk])) ?_
        obtain ⟨k, pdF, hmem, hlook, hkindF⟩ := hform
        rcases List.mem_cons.mp hmem with heq | htail
        · exfalso
          have hk : k = k0 := congrArg Prod.fst heq
          rw [hk, hpd0] at hlook
          cases hlook
          exact hf hkindF
        · exact ⟨k, pdF, htail, hlook, hkindF⟩
    · rw [if_neg hq]
      refine ih total datas acc (fun k hk => hdata k (by simp [hk]))
        (fun k hk => hbuild k (by simp [hk])) ?_
      obtain ⟨k, pdF, hmem, hlook, hkindF⟩ := hform
      rcases List.mem_cons.mp hmem with heq | htail
      · exfalso
        have hk : k = k0 := congrArg Prod.fst heq
        have hn : total = n0 := congrArg Prod.snd heq
        rw [hk, hpd0] at hlook
        cases hlook
        refine hq ⟨hn.symm, ?_⟩
        rw [hpd0, Option.getD_some, hkindF]
        simp
      · exact ⟨k, pdF, htail, hlook, hkindF⟩

theorem tallyRoutes_data_kind (routes : List Route)
    (out : List (ParamKey × Nat) × List (ParamKey × ParameterData))
    (h : tallyRoutes routes [] [] = .ok out) :
    ∀ k pd, alookup k out.2 = some pd →
      pd.Kind = k.2 ∧ ∃ r ∈ routes, ∃ p ∈ r.ParameterDocs, p.data = pd := by
  intro k pd hl
  rcases tallyRoutes_data_src routes [] [] out h k pd hl with hc | ⟨r, hr, p, hp, hd, hk⟩
  · simp at hc
  · subst hd
    refine ⟨?_, r, hr, p, hp, rfl⟩
    rw [← hk]
    rfl

/-! # Hoisting correctness (C1) -/

/-- C1 (amended): for a successful `findCommonParameters`, a parameter key
is in the hoisted map iff the route set is non-empty, every route declares
a parameter with that key, and the key's kind is not body.  Identity of the
parameter data across the routes is not required (see the counterexample);
the representative data recorded for the key — the last scanned occurrence
— is the one built into the hoisted parameter. -/
theorem hoisting_key_iff (routes : List Route) (m : List (ParamKey × Parameter))
    (hok : findCommonParameters routes = .ok m) (key : ParamKey) :
    key ∈ akeys m ↔
      routes ≠ [] ∧ (∀ r ∈ routes, declaresKey r key) ∧ key.2 ≠ .body := by
  simp only [findCommonParameters] at hok
  split at hok
  · simp at hok
  · rename_i counts datas hts
    have hnd : (akeys counts).Nodup :=
      tallyRoutes_counts_nodup routes [] [] (counts, datas) hts (by simp)
    rw [hoistCommon_mem counts routes.length datas [] m hnd hok key]
    simp only [akeys_nil, List.not_mem_nil, false_or]
    have hcv : countValue key counts =
        routes.countP (fun r => decide (declaresKey r key)) := by
      simpa [countValue] using
        tallyRoutes_countValue routes [] [] (counts, datas) hts key
    constructor
    · rintro ⟨hlk, hcond⟩
      have hmemc : key ∈ akeys counts := mem_akeys_of_alookup hlk
      have hmemd := tallyRoutes_counts_sub routes [] [] (counts, datas) hts
        (by simp) key hmemc
      obtain ⟨pd, hpd⟩ := alookup_isSome_of_mem hmemd
      have hkind := (tallyRoutes_data_kind routes (counts, datas) hts key pd hpd).1
      have hne : routes ≠ [] := by
        intro he
        subst he
        simp only [tallyRoutes] at hts
        cases hts
        simp at hmemc
      refine ⟨hne, ?_, ?_⟩
      · have hcp : routes.countP (fun r => decide (declaresKey r key)) =
            routes.length := by
          rw [← hcv]
          simp [countValue, hlk]
        intro r hr
        exact of_decide_eq_true (List.countP_eq_length.mp hcp r hr)
      · rw [hpd, Option.getD_some] at hcond
        rwa [hkind] at hcond
    · rintro ⟨hne, hall, hkb⟩
      obtain ⟨r0, hr0⟩ := List.exists_mem_of_ne_nil routes hne
      have hmemc : key ∈ akeys counts := by
        rw [tallyRoutes_mem_counts routes [] [] (counts, datas) hts key]
        exact Or.inr ⟨r0, hr0, hall r0 hr0⟩
      obtain ⟨v, hv⟩ := alookup_isSome_of_mem hmemc
      have hcp : routes.countP (fun r => decide (declaresKey r key)) =
          routes.length :=
        List.countP_eq_length.mpr (fun r hr => decide_eq_true (hall r hr))
      have hvval : v = routes.length := by
        have h2 : countValue key counts = routes.length := by rw [hcv, hcp]
        simpa [countValue, hv] using h2
      subst hvval
      refine ⟨hv, ?_⟩
      have hmemd := tallyRoutes_counts_sub routes [] [] (counts, datas) hts
        (by simp) key hmemc
      obtain ⟨pd, hpd⟩ := alookup_isSome_of_mem hmemd
      have hkind := (tallyRoutes_data_kind routes (counts, datas) hts key pd hpd).1
      rw [hpd, Option.getD_some, hkind]
      exact hkb

/-- Witness for C1: in the two-route end-to-end scenario the key
(`path`, path) is hoisted, so every route declares it and its kind is not
body. -/
theorem hoisting_key_iff_witness :
    [rGet, rPost] ≠ [] ∧
      (∀ r ∈ [rGet, rPost], declaresKey r ("path", ParameterKind.path)) ∧
      ("path", ParameterKind.path).2 ≠ ParameterKind.body :=
  (hoisting_key_iff [rGet, rPost] [(("path", ParameterKind.path), hoistedPathParam)]
    rfl ("path", ParameterKind.path)).mp (by decide)

/-- C1 counterexample: two routes declare the key (`q`, query) with
different parameter data (different descriptions); the key is nevertheless
hoisted (carrying the last scanned data), so "declared with identical
parameter data on every route" is not necessary for hoisting. -/
theorem hoisting_identical_data_counterexample :
    findCommonParameters [rQ1, rQ2] =
      .ok [(("q", ParameterKind.query),
        { Name := "q", Description := "second description", Required := false
          In := "query" })]
    ∧ ("q", ParameterKind.query) ∈
        akeys [(("q", ParameterKind.query),
          ({ Name := "q", Description := "second description", Required := false
             In := "query" } : Parameter))]
    ∧ ¬ declaredIdenticallyOnAll [rQ1, rQ2] ("q", ParameterKind.query) := by
  refine ⟨rfl, by decide, ?_⟩
  rintro ⟨pd, hkey, hall⟩
  obtain ⟨p1, hp1, hd1⟩ := hall rQ1 (by simp)
  obtain ⟨p2, hp2, hd2⟩ := hall rQ2 (by simp)
  simp only [rQ1, emptyRoute, List.mem_singleton] at hp1
  simp only [rQ2, emptyRoute, List.mem_singleton] at hp2
  rw [hp1] at hd1
  rw [hp2] at hd2
  exact absurd (hd1.trans hd2.symm) (by decide)

/-! # Unsupported common parameter kind (C9) -/

/-- C9: if a form-kind parameter is declared with the same key on every
route sharing a path — while every other declared non-form, non-body
parameter builds successfully and no route declares a key twice —
`findCommonParameters` returns an unsupported-parameter-kind error carrying
a form-kind parameter, and the whole build of a web service whose routes
group to that path fails with the same error kind, even though a form kind
is never emitted as a hoisted parameter. -/
theorem common_form_parameter_fails (routes : List Route) (n : String)
    (hne : routes ≠ [])
    (hdecl : ∀ r ∈ routes, declaresKey r (n, ParameterKind.form))
    (hnodup : ∀ r ∈ routes, (r.ParameterDocs.map mapKeyFromParam).Nodup)
    (hbuildOk : ∀ r ∈ routes, ∀ p ∈ r.ParameterDocs,
      p.data.Kind ≠ .form → p.data.Kind ≠ .body →
      ∃ bp, buildParameter p.data none = .ok bp) :
    (∃ pd, findCommonParameters routes = .error (.unsupportedKind pd) ∧
      pd.Kind = ParameterKind.form)
    ∧ (∀ (cfg : Config) (w : WebService) (acc : Paths) (p0 : String),
        cfg.ignorePrefixes = [] → w.pathParameters = [] →
        groupRoutesByPath w.routes = [(p0, routes)] →
        goHasSuffix p0 ":*\x7d" = false →
        ∃ pd, (buildOpenAPISpec cfg [w] acc).2 = some (.unsupportedKind pd) ∧
          pd.Kind = ParameterKind.form) := by
  have hmain : ∃ pd, findCommonParameters routes = .error (.unsupportedKind pd) ∧
      pd.Kind = ParameterKind.form := by
    obtain ⟨⟨counts, datas⟩, hts⟩ := tallyRoutes_ok routes [] [] hnodup
    have hdata : ∀ k, k ∈ akeys counts → ∃ pd, alookup k datas = some pd := by
      intro k hk
      exact alookup_isSome_of_mem
        (tallyRoutes_counts_sub routes [] [] (counts, datas) hts (by simp) k hk)
    have hbuild2 : ∀ k, k ∈ akeys counts → ∀ pd, alookup k datas = some pd →
        pd.Kind ≠ .form → pd.Kind ≠ .body →
        ∃ bp, buildParameter pd none = .ok bp := by
      intro k hk pd hpd hf hb
      obtain ⟨-, r, hr, p, hp, hdp⟩ :=
        tallyRoutes_data_kind routes (counts, datas) hts k pd hpd
      subst hdp
      exact hbuildOk r hr p hp hf hb
    have hform : ∃ k pdF, (k, routes.length) ∈ counts ∧
        alookup k datas = some pdF ∧ pdF.Kind = .form := by
      have hcv : countValue (n, ParameterKind.form) counts = routes.length := by
        have h1 : countValue (n, ParameterKind.form) counts =
            routes.countP (fun r => decide (declaresKey r (n, ParameterKind.form))) := by
          simpa [countValue] using
            tallyRoutes_countValue routes [] [] (counts, datas) hts (n, ParameterKind.form)
        rw [h1]
        exact List.countP_eq_length.mpr (fun r hr => decide_eq_true (hdecl r hr))
      have hpos : routes.length ≠ 0 := by
        intro h0
        exact hne (List.length_eq_zero.mp h0)
      obtain ⟨v, hv⟩ : ∃ v, alookup (n, ParameterKind.form) counts = some v := by
        cases hl : alookup (n, ParameterKind.form) counts with
        | none =>
          exfalso
          rw [countValue, hl] at hcv
          exact hpos hcv.symm
        | some v => exact ⟨v, rfl⟩
      have hvval : v = routes.length := by
        rw [countValue, hv] at hcv
        simpa using hcv
      subst hvval
      obtain ⟨pdF, hpdF⟩ := hdata _ (mem_akeys_of_alookup hv)
      have hkind := (tallyRoutes_data_kind routes (counts, datas) hts _ pdF hpdF).1
      exact ⟨(n, ParameterKind.form), pdF, alookup_mem_pair hv, hpdF, hkind⟩
    obtain ⟨pd, hpd, hf⟩ :=
      hoistCommon_form_error counts routes.length datas [] hdata hbuild2 hform
    refine ⟨pd, ?_, hf⟩
    simp only [findCommonParameters]
    rw [hts]
    exact hpd
  refine ⟨hmain, ?_⟩
  intro cfg w acc p0 hip hwp hgroup hsfx
  obtain ⟨pd, hpd, hf⟩ := hmain
  refine ⟨pd, ?_, hf⟩
  simp [buildOpenAPISpec, hip, hwp, hgroup, buildParameters, buildPathsForService,
    hsfx, hpd, trieHasMatch]

/-- Witness for C9: a single route declaring the form parameter `fparam`. -/
theorem common_form_parameter_fails_witness :
    (∃ pd, findCommonParameters [rForm] = .error (.unsupportedKind pd) ∧
      pd.Kind = ParameterKind.form)
    ∧ (∃ pd, (buildOpenAPISpec cfg0 [wsForm] []).2 = some (.unsupportedKind pd) ∧
        pd.Kind = ParameterKind.form) := by
  have h := common_form_parameter_fails [rForm] "fparam"
    (List.cons_ne_nil _ _) (by decide) (by decide)
    (by
      intro r hr p hp hf hb
      exfalso
      simp only [List.mem_singleton] at hr
      subst hr
      simp only [rForm, emptyRoute, List.mem_singleton] at hp
      subst hp
      exact hf rfl)
  exact ⟨h.1, h.2 cfg0 wsForm [] "/x/f" rfl rfl rfl rfl⟩

end Builder3
